import Mathlib

/-!
Verification of the farmcast repository: a shallow embedding of the
frontend logic (React components under src/) together with models of the
backend core components that the specification describes.  JavaScript
numbers are embedded as rationals, JavaScript arrays as lists, and the
default comparator of Array.prototype.sort (string comparison of the
elements) is made explicit where the code relies on it.
-/

namespace FarmCast

/-! ### Generic stable sorting

JavaScript Array.prototype.sort is a stable sort with respect to the
comparator; we model it with a structurally recursive insertion sort,
which is stable, so it agrees with the JavaScript result whenever the
comparator is a total preorder. -/

def insertLe (le : α → α → Bool) (a : α) : List α → List α
  | [] => [a]
  | b :: l => if le a b then a :: b :: l else b :: insertLe le a l

def sortLe (le : α → α → Bool) : List α → List α
  | [] => []
  | a :: l => insertLe le a (sortLe le l)

/-! ### LocationCapture.handleManualSubmit (C1)

The two coordinate fields are parsed with parseFloat; a field that does
not parse to a number is modelled as `none`.  The result records the
error message shown to the user (if any) and the argument passed to the
onLocationCapture callback (if it is invoked). -/

def handleManualSubmit (latP lonP : Option ℚ) : Option String × Option (ℚ × ℚ) :=
  match latP, lonP with
  | none, _ => (some "Please enter valid coordinates", none)
  | some _, none => (some "Please enter valid coordinates", none)
  | some lat, some lon =>
    if lat < -90 ∨ lat > 90 ∨ lon < -180 ∨ lon > 180 then
      (some "Coordinates are out of valid range", none)
    else
      (none, some (lat, lon))

/-! ### SoilAnalysis.getSoilHealthStatus (C3)

Each assessment mirrors one if/else-if chain of the source: the first
branch adds 20 to the score, the later branches push an issue string. -/

structure SoilHealth where
  score : ℕ
  issues : List String
  deriving DecidableEq

def phAssessment (ph : ℚ) : ℕ × List String :=
  if 6.0 ≤ ph ∧ ph ≤ 7.5 then (20, [])
  else if ph < 5.5 then (0, ["Soil is too acidic"])
  else if ph > 8.0 then (0, ["Soil is too alkaline"])
  else (0, [])

def organicCarbonAssessment (organicCarbon : ℚ) : ℕ × List String :=
  if organicCarbon > 1.5 then (20, [])
  else if organicCarbon < 0.8 then (0, ["Low organic matter"])
  else (0, [])

def nitrogenAssessment (nitrogen : ℚ) : ℕ × List String :=
  if nitrogen > 250 then (20, [])
  else if nitrogen < 200 then (0, ["Nitrogen deficiency"])
  else (0, [])

def phosphorusAssessment (phosphorus : ℚ) : ℕ × List String :=
  if phosphorus > 25 then (20, [])
  else if phosphorus < 15 then (0, ["Phosphorus deficiency"])
  else (0, [])

def potassiumAssessment (potassium : ℚ) : ℕ × List String :=
  if potassium > 200 then (20, [])
  else if potassium < 150 then (0, ["Potassium deficiency"])
  else (0, [])

def getSoilHealthStatus (ph organicCarbon nitrogen phosphorus potassium : ℚ) : SoilHealth :=
  let a := phAssessment ph
  let b := organicCarbonAssessment organicCarbon
  let c := nitrogenAssessment nitrogen
  let d := phosphorusAssessment phosphorus
  let e := potassiumAssessment potassium
  { score := a.1 + b.1 + c.1 + d.1 + e.1,
    issues := a.2 ++ b.2 ++ c.2 ++ d.2 ++ e.2 }

/-! ### SoilAnalysis.getSoilTexture (C9) -/

structure SoilTexture where
  type : String
  color : String
  bg : String
  deriving DecidableEq

def getSoilTexture (sand clay silt : ℚ) : SoilTexture :=
  if clay > 40 then { type := "Clay", color := "text-brown-700", bg := "bg-brown-50" }
  else if sand > 60 then { type := "Sandy", color := "text-yellow-700", bg := "bg-yellow-50" }
  else if silt > 40 then { type := "Silty", color := "text-gray-700", bg := "bg-gray-50" }
  else { type := "Loam", color := "text-green-700", bg := "bg-green-50" }

/-! ### WeatherCard farming recommendations (C7)

The rendered list is the concatenation of the five conditional items of
the source, in source order. -/

structure WeatherSnapshot where
  temperature : ℚ
  humidity : ℚ
  rainfall : ℚ
  wind_speed : ℚ
  evapotranspiration : ℚ
  deriving DecidableEq

def weatherRecommendations (w : WeatherSnapshot) : List String :=
  (if w.rainfall > 20 then ["Heavy rainfall expected - ensure proper drainage"] else [])
  ++ (if w.temperature > 35 then ["High temperature - provide shade for sensitive crops"] else [])
  ++ (if w.humidity > 80 then ["High humidity - monitor for fungal diseases"] else [])
  ++ (if w.wind_speed > 10 then ["Strong winds - secure tall crops and structures"] else [])
  ++ (if w.evapotranspiration > 6 then ["High evapotranspiration - increase irrigation frequency"] else [])

/-! ### Historical analysis request bodies (C8)

farmCastAPI.getHistoricalAnalysis builds the POST body for the
historical-analysis endpoint; the JavaScript default parameter
yearsBack = 5 is modelled with an Option argument.
FarmerSupport.fetchHistoricalInsights builds its own body with a literal
years_back of 5. -/

structure HistoricalAnalysisRequest where
  latitude : ℚ
  longitude : ℚ
  years_back : ℤ
  deriving DecidableEq

def getHistoricalAnalysisBody (latitude longitude : ℚ) (yearsBack : Option ℤ) :
    HistoricalAnalysisRequest :=
  { latitude := latitude, longitude := longitude, years_back := yearsBack.getD 5 }

def fetchHistoricalInsightsBody (latitude longitude : ℚ) : HistoricalAnalysisRequest :=
  { latitude := latitude, longitude := longitude, years_back := 5 }

/-! ### HistoricalInsights.formatYieldData (C2)

The source collects all years with a JavaScript Set (distinct values)
and sorts them with the default comparator of Array.prototype.sort,
which compares the string representations of the elements.  For each
year it builds a row object mapping each crop of a trend containing the
year (via indexOf on the years array) to the yield at that index; a
yields array shorter than the years array yields an undefined value,
modelled as none.  Assigning the same object key twice overwrites, which
upsertEntry reproduces. -/

structure TrendSummary where
  crop : String
  years : List ℤ
  yields : List ℚ
  deriving DecidableEq

structure YieldRow where
  year : ℤ
  entries : List (String × Option ℚ)
  deriving DecidableEq

def charListLt : List Char → List Char → Bool
  | [], [] => false
  | [], _ :: _ => true
  | _ :: _, [] => false
  | a :: as, b :: bs => if a < b then true else if b < a then false else charListLt as bs

def strLe (a b : String) : Bool := !charListLt b.data a.data

def jsNumLe (a b : ℤ) : Bool := strLe (toString a) (toString b)

def jsIndexOf : List ℤ → ℤ → Option ℕ
  | [], _ => none
  | a :: l, y => if a = y then some 0 else (jsIndexOf l y).map (· + 1)

def upsertEntry : List (String × Option ℚ) → String → Option ℚ → List (String × Option ℚ)
  | [], c, v => [(c, v)]
  | (c0, v0) :: rest, c, v =>
    if c0 = c then (c0, v) :: rest else (c0, v0) :: upsertEntry rest c v

def listLookup : List (String × Option ℚ) → String → Option (Option ℚ)
  | [], _ => none
  | (c0, v0) :: rest, c => if c0 = c then some v0 else listLookup rest c

def yieldRowStep (year : ℤ) (acc : List (String × Option ℚ)) (t : TrendSummary) :
    List (String × Option ℚ) :=
  match jsIndexOf t.years year with
  | some i => upsertEntry acc t.crop (t.yields.get? i)
  | none => acc

def rowFor (trends : List TrendSummary) (year : ℤ) : YieldRow :=
  { year := year, entries := trends.foldl (yieldRowStep year) [] }

def formatYieldData (trends : List TrendSummary) : List YieldRow :=
  match trends with
  | [] => []
  | _ =>
    let allYears := sortLe jsNumLe ((trends.map TrendSummary.years).flatten.dedup)
    allYears.map (rowFor trends)

/-! ### Visualization.loadVisualizationData chart assembly (C10)

The combination step of loadVisualizationData: one row per historical
entry, then each prediction is merged into the first row with the same
year (findIndex) or pushed at the end, then the optional custom
prediction point is merged the same way (the JavaScript guard tests the
truthiness of its year and value, so a zero is skipped), and finally the
rows are sorted by year with a numeric comparator. -/

structure HistoricalItem where
  year : ℤ
  yield_tons : ℚ
  deriving DecidableEq

structure PredictionItem where
  year : ℤ
  predicted_yield_tons : ℚ
  deriving DecidableEq

inductive RowType
  | historical
  | predicted
  | custom
  deriving DecidableEq

structure ChartRow where
  year : ℤ
  historical : Option ℚ
  predicted : Option ℚ
  custom : Option ℚ
  type : RowType
  deriving DecidableEq

def addPrediction (data : List ChartRow) (p : PredictionItem) : List ChartRow :=
  match data with
  | [] => [{ year := p.year, historical := none, predicted := some p.predicted_yield_tons,
             custom := none, type := RowType.predicted }]
  | r :: rs =>
    if r.year = p.year then { r with predicted := some p.predicted_yield_tons } :: rs
    else r :: addPrediction rs p

def addCustom (data : List ChartRow) (c : PredictionItem) : List ChartRow :=
  match data with
  | [] => [{ year := c.year, historical := none, predicted := none,
             custom := some c.predicted_yield_tons, type := RowType.custom }]
  | r :: rs =>
    if r.year = c.year then { r with custom := some c.predicted_yield_tons } :: rs
    else r :: addCustom rs c

def chartYearLe (a b : ChartRow) : Bool := decide (a.year ≤ b.year)

def histRow (item : HistoricalItem) : ChartRow :=
  { year := item.year, historical := some item.yield_tons, predicted := none,
    custom := none, type := RowType.historical }

def applyCustom (data : List ChartRow) : Option PredictionItem → List ChartRow
  | some c => if c.year ≠ 0 ∧ c.predicted_yield_tons ≠ 0 then addCustom data c else data
  | none => data

def loadVisualizationData (historical : List HistoricalItem)
    (predictions : List PredictionItem) (customPrediction : Option PredictionItem) :
    List ChartRow :=
  let base := historical.map histRow
  let withPred := predictions.foldl addPrediction base
  let withCustom := applyCustom withPred customPrediction
  sortLe chartYearLe withCustom

/-! ### Cache Layer (C5) -/

/-- Modelled from the spec: the backend Cache Layer lives in
backend/services/cache_service.py, which is not part of the sources, so
the entry shape of section 3 (payload, created_at, expires_at with
expires_at always past created_at) is taken from the specification. -/
structure CacheEntry (α : Type) where
  payload : α
  created_at : ℤ
  expires_at : ℤ
  deriving DecidableEq

/-- Modelled from the spec: a store of entries keyed by
(category, composite_key), as in section 6. -/
def CacheStore (α : Type) : Type := List ((String × String) × CacheEntry α)

/-- Modelled from the spec: put upserts an entry with
expires_at = now + ttl (section 4.1); the clock is passed explicitly,
following the injected-clock design note. -/
def cachePut {α : Type} :
    CacheStore α → String → String → α → ℤ → ℤ → CacheStore α
  | [], category, key, payload, ttl, now =>
    [((category, key), { payload := payload, created_at := now, expires_at := now + ttl })]
  | e :: rest, category, key, payload, ttl, now =>
    if e.1 = (category, key) then
      ((category, key),
        { payload := payload, created_at := now, expires_at := now + ttl }) :: rest
    else e :: cachePut rest category key payload ttl now

def cacheFind {α : Type} : CacheStore α → String × String → Option (CacheEntry α)
  | [], _ => none
  | e :: rest, k => if e.1 = k then some e.2 else cacheFind rest k

/-- Modelled from the spec: get returns the payload only if
now < expires_at, otherwise it reports a miss (section 4.1). -/
def cacheGet {α : Type} (s : CacheStore α) (category key : String) (now : ℤ) : Option α :=
  match cacheFind s (category, key) with
  | some e => if now < e.expires_at then some e.payload else none
  | none => none

/-! ### Suitability Scorer (C4) -/

def clamp01 (x : ℚ) : ℚ := max 0 (min 1 x)

/-- Modelled from the spec: the soil snapshot of section 3; the backend
scorer (backend/services/crop_intelligence.py) is not in the sources. -/
structure SoilSnapshot where
  ph : ℚ
  organic_carbon : ℚ
  nitrogen : ℚ
  phosphorus : ℚ
  potassium : ℚ
  sand : ℚ
  silt : ℚ
  clay : ℚ
  deriving DecidableEq

structure TempSpec where
  optimal : ℚ
  tolerance : ℚ
  deriving DecidableEq

structure PhBand where
  ideal_low : ℚ
  ideal_high : ℚ
  tol_low : ℚ
  tol_high : ℚ
  deriving DecidableEq

structure Affinity where
  exact_matches : List String
  adjacent_matches : List String
  deriving DecidableEq

structure NutrientReq where
  nitrogen : ℚ
  phosphorus : ℚ
  potassium : ℚ
  deriving DecidableEq

/-- Modelled from the spec: the static crop profile of section 3; every
attribute that a sub-score reads is optional because a missing attribute
must default the sub-score to a neutral 0.5 (section 4.2). -/
structure CropProfile where
  crop : String
  temperature : Option TempSpec
  ph_band : Option PhBand
  zone_affinity : Option Affinity
  texture_affinity : Option Affinity
  nutrients : Option NutrientReq
  deriving DecidableEq

/-- Modelled from the spec: temperature_compat is
clamp(1 - abs(actual - optimal) / tolerance, 0, 1). -/
def temperature_compat (w : WeatherSnapshot) (p : CropProfile) : ℚ :=
  match p.temperature with
  | none => 1/2
  | some t => clamp01 (1 - |w.temperature - t.optimal| / t.tolerance)

/-- Modelled from the spec: soil_ph_compat is 1 inside the ideal band,
ramps linearly to 0 at the tolerance-band edges and is 0 outside; the
ramp is clamped into the unit interval, which is what the requirement
that every sub-score lies in the unit interval forces on degenerate
bands. -/
def soil_ph_compat (s : SoilSnapshot) (p : CropProfile) : ℚ :=
  match p.ph_band with
  | none => 1/2
  | some b =>
    if b.ideal_low ≤ s.ph ∧ s.ph ≤ b.ideal_high then 1
    else if s.ph < b.ideal_low then clamp01 ((s.ph - b.tol_low) / (b.ideal_low - b.tol_low))
    else clamp01 ((b.tol_high - s.ph) / (b.tol_high - b.ideal_high))

/-- Modelled from the spec: categorical matching with exact match 1.0,
adjacent 0.5, unrelated 0.0, shared by the climatic-zone and the
soil-texture sub-scores. -/
def categoricalMatch (value : String) : Option Affinity → ℚ
  | none => 1/2
  | some a =>
    if value ∈ a.exact_matches then 1
    else if value ∈ a.adjacent_matches then 1/2
    else 0

/-- Modelled from the spec: nutrient_availability is the mean over N, P
and K of min(actual / required, 1.0); implausible negative inputs are
clamped to zero before scoring, and the ratio is clamped into the unit
interval, which the unit-interval requirement forces for non-positive
requirements. -/
def nutrient_availability (s : SoilSnapshot) (p : CropProfile) : ℚ :=
  match p.nutrients with
  | none => 1/2
  | some r =>
    (clamp01 (max 0 s.nitrogen / r.nitrogen)
      + clamp01 (max 0 s.phosphorus / r.phosphorus)
      + clamp01 (max 0 s.potassium / r.potassium)) / 3

/-- Modelled from the spec: the weighted sum of the five sub-scores with
the fixed weights 0.25, 0.20, 0.20, 0.15, 0.20; the climatic zone comes
from the location collaborator and the texture is derived from the soil
snapshot with the texture rule of the frontend. -/
def suitabilityTotal (w : WeatherSnapshot) (s : SoilSnapshot) (zone : String)
    (p : CropProfile) : ℚ :=
  0.25 * temperature_compat w p
  + 0.20 * soil_ph_compat s p
  + 0.20 * categoricalMatch zone p.zone_affinity
  + 0.15 * categoricalMatch (getSoilTexture s.sand s.clay s.silt).type p.texture_affinity
  + 0.20 * nutrient_availability s p

/-- Modelled from the spec: the final score is
round(100 times the weighted sum). -/
def suitability_score (w : WeatherSnapshot) (s : SoilSnapshot) (zone : String)
    (p : CropProfile) : ℤ :=
  round (100 * suitabilityTotal w s zone p)

/-! ### Recommendation Ranker ordering (C6) -/

/-- Modelled from the spec: a scored catalog entry as produced by the
Recommendation Ranker before ranks are assigned (section 4.3); the
backend ranker is not part of the sources. -/
structure ScoredCrop where
  crop : String
  score : ℤ
  profit_margin : ℚ
  deriving DecidableEq

structure RankedCrop where
  crop : String
  score : ℤ
  profit_margin : ℚ
  rank : ℕ
  deriving DecidableEq

/-- Modelled from the spec: the sort comparator of section 4.3, score
descending, then profit_margin descending, then crop name ascending. -/
def recLe (a b : ScoredCrop) : Bool :=
  if a.score = b.score then
    if a.profit_margin = b.profit_margin then strLe a.crop b.crop
    else decide (b.profit_margin < a.profit_margin)
  else decide (b.score < a.score)

def recRel (a b : ScoredCrop) : Prop :=
  b.score < a.score
    ∨ (a.score = b.score ∧ (b.profit_margin < a.profit_margin
        ∨ (a.profit_margin = b.profit_margin ∧ a.crop ≤ b.crop)))

def rankedRel (a b : RankedCrop) : Prop :=
  b.score < a.score
    ∨ (a.score = b.score ∧ (b.profit_margin < a.profit_margin
        ∨ (a.profit_margin = b.profit_margin ∧ a.crop ≤ b.crop)))

/-- Modelled from the spec: rank is assigned 1..n in sorted order. -/
def assignRanks : ℕ → List ScoredCrop → List RankedCrop
  | _, [] => []
  | n, r :: rest =>
    { crop := r.crop, score := r.score, profit_margin := r.profit_margin, rank := n }
      :: assignRanks (n + 1) rest

/-- Modelled from the spec: the ranker sorts the scored entries with the
deterministic comparator and assigns ranks starting at 1. -/
def rankRecommendations (recs : List ScoredCrop) : List RankedCrop :=
  assignRanks 1 (sortLe recLe recs)

/-! ### Theorems -/

theorem mem_insertLe (le : α → α → Bool) (a : α) (l : List α) (b : α) :
    b ∈ insertLe le a l ↔ b = a ∨ b ∈ l := by
  induction l with
  | nil => simp [insertLe]
  | cons c l ih =>
    simp only [insertLe]
    split
    · simp
    · simp only [List.mem_cons, ih]
      tauto

theorem perm_insertLe (le : α → α → Bool) (a : α) (l : List α) :
    (insertLe le a l).Perm (a :: l) := by
  induction l with
  | nil => simp [insertLe]
  | cons c l ih =>
    simp only [insertLe]
    split
    · exact List.Perm.refl _
    · exact (ih.cons c).trans (List.Perm.swap a c l)

theorem perm_sortLe (le : α → α → Bool) (l : List α) : (sortLe le l).Perm l := by
  induction l with
  | nil => simp [sortLe]
  | cons a l ih =>
    exact (perm_insertLe le a (sortLe le l)).trans (ih.cons a)

theorem pairwise_insertLe (le : α → α → Bool)
    (trans : ∀ a b c, le a b = true → le b c = true → le a c = true)
    (total : ∀ a b, le a b = true ∨ le b a = true)
    (a : α) (l : List α) (h : l.Pairwise (fun x y => le x y = true)) :
    (insertLe le a l).Pairwise (fun x y => le x y = true) := by
  induction l with
  | nil => simp [insertLe]
  | cons b l ih =>
    simp only [insertLe]
    rcases List.pairwise_cons.mp h with ⟨hb, hl⟩
    split
    next hab =>
      refine List.pairwise_cons.mpr ⟨?_, h⟩
      intro c hc
      rcases List.mem_cons.mp hc with rfl | hcl
      · exact hab
      · exact trans a b c hab (hb c hcl)
    next hab =>
      refine List.pairwise_cons.mpr ⟨?_, ih hl⟩
      intro c hc
      rcases (mem_insertLe le a l c).mp hc with hca | hcl
      · rw [hca]
        rcases total a b with h1 | h1
        · exact absurd h1 hab
        · exact h1
      · exact hb c hcl

theorem pairwise_sortLe (le : α → α → Bool)
    (trans : ∀ a b c, le a b = true → le b c = true → le a c = true)
    (total : ∀ a b, le a b = true ∨ le b a = true)
    (l : List α) : (sortLe le l).Pairwise (fun x y => le x y = true) := by
  induction l with
  | nil => simp [sortLe]
  | cons a l ih => exact pairwise_insertLe le trans total a (sortLe le l) ih

/-- C1: a manual coordinate submission whose latitude or longitude field
does not parse sets an error and never invokes the callback; parsed
coordinates outside the valid ranges set an error and never invoke the
callback; otherwise the error is cleared and the callback is invoked
exactly once with the parsed pair. -/
theorem handleManualSubmit_spec (latP lonP : Option ℚ) :
    ((latP = none ∨ lonP = none) →
      handleManualSubmit latP lonP = (some "Please enter valid coordinates", none))
    ∧ (∀ lat lon : ℚ, latP = some lat → lonP = some lon →
        ((lat < -90 ∨ lat > 90 ∨ lon < -180 ∨ lon > 180) →
          handleManualSubmit latP lonP = (some "Coordinates are out of valid range", none))
        ∧ (-90 ≤ lat → lat ≤ 90 → -180 ≤ lon → lon ≤ 180 →
          handleManualSubmit latP lonP = (none, some (lat, lon)))) := by
  constructor
  · rintro (rfl | rfl)
    · simp [handleManualSubmit]
    · cases latP <;> simp [handleManualSubmit]
  · rintro lat lon rfl rfl
    constructor
    · intro h
      simp [handleManualSubmit, h]
    · intro h1 h2 h3 h4
      have : ¬(lat < -90 ∨ lat > 90 ∨ lon < -180 ∨ lon > 180) := by
        push_neg
        exact ⟨by linarith, by linarith, by linarith, by linarith⟩
      simp [handleManualSubmit, this]

/-- Witness for C1 at concrete inputs. -/
theorem handleManualSubmit_spec_witness :
    handleManualSubmit none (some 77) = (some "Please enter valid coordinates", none)
    ∧ handleManualSubmit (some 100) (some 77) = (some "Coordinates are out of valid range", none)
    ∧ handleManualSubmit (some 28) (some 77) = (none, some (28, 77)) := by
  refine ⟨?_, ?_, ?_⟩
  · exact (handleManualSubmit_spec none (some 77)).1 (Or.inl rfl)
  · exact ((handleManualSubmit_spec (some 100) (some 77)).2 100 77 rfl rfl).1
      (Or.inr (Or.inl (by norm_num)))
  · exact ((handleManualSubmit_spec (some 28) (some 77)).2 28 77 rfl rfl).2
      (by norm_num) (by norm_num) (by norm_num) (by norm_num)

/-- C3: for all numeric inputs getSoilHealthStatus returns a score in
the set 0, 20, 40, 60, 80, 100, and the score is 100 exactly when the
pH lies in the band 6.0 to 7.5 and organic carbon, nitrogen, phosphorus
and potassium each exceed their respective thresholds. -/
theorem getSoilHealthStatus_score_spec (ph organicCarbon nitrogen phosphorus potassium : ℚ) :
    (getSoilHealthStatus ph organicCarbon nitrogen phosphorus potassium).score
      ∈ ({0, 20, 40, 60, 80, 100} : Finset ℕ)
    ∧ ((getSoilHealthStatus ph organicCarbon nitrogen phosphorus potassium).score = 100 ↔
        ((6.0 ≤ ph ∧ ph ≤ 7.5) ∧ organicCarbon > 1.5 ∧ nitrogen > 250
          ∧ phosphorus > 25 ∧ potassium > 200)) := by
  have hA : (phAssessment ph).1 = 20 ↔ (6.0 ≤ ph ∧ ph ≤ 7.5) := by
    simp only [phAssessment]
    split_ifs with h <;> simp [h]
  have hB : (organicCarbonAssessment organicCarbon).1 = 20 ↔ organicCarbon > 1.5 := by
    simp only [organicCarbonAssessment]
    split_ifs with h <;> simp [h]
  have hC : (nitrogenAssessment nitrogen).1 = 20 ↔ nitrogen > 250 := by
    simp only [nitrogenAssessment]
    split_ifs with h <;> simp [h]
  have hD : (phosphorusAssessment phosphorus).1 = 20 ↔ phosphorus > 25 := by
    simp only [phosphorusAssessment]
    split_ifs with h <;> simp [h]
  have hE : (potassiumAssessment potassium).1 = 20 ↔ potassium > 200 := by
    simp only [potassiumAssessment]
    split_ifs with h <;> simp [h]
  have hA0 : (phAssessment ph).1 = 20 ∨ (phAssessment ph).1 = 0 := by
    simp only [phAssessment]
    split_ifs <;> simp
  have hB0 : (organicCarbonAssessment organicCarbon).1 = 20
      ∨ (organicCarbonAssessment organicCarbon).1 = 0 := by
    simp only [organicCarbonAssessment]
    split_ifs <;> simp
  have hC0 : (nitrogenAssessment nitrogen).1 = 20 ∨ (nitrogenAssessment nitrogen).1 = 0 := by
    simp only [nitrogenAssessment]
    split_ifs <;> simp
  have hD0 : (phosphorusAssessment phosphorus).1 = 20
      ∨ (phosphorusAssessment phosphorus).1 = 0 := by
    simp only [phosphorusAssessment]
    split_ifs <;> simp
  have hE0 : (potassiumAssessment potassium).1 = 20 ∨ (potassiumAssessment potassium).1 = 0 := by
    simp only [potassiumAssessment]
    split_ifs <;> simp
  simp only [getSoilHealthStatus]
  constructor
  · rcases hA0 with h1 | h1 <;> rcases hB0 with h2 | h2 <;> rcases hC0 with h3 | h3 <;>
      rcases hD0 with h4 | h4 <;> rcases hE0 with h5 | h5 <;>
      rw [h1, h2, h3, h4, h5] <;> decide
  · constructor
    · intro h
      rcases hA0 with h1 | h1 <;> rcases hB0 with h2 | h2 <;> rcases hC0 with h3 | h3 <;>
        rcases hD0 with h4 | h4 <;> rcases hE0 with h5 | h5 <;>
        first
        | exact ⟨hA.mp h1, hB.mp h2, hC.mp h3, hD.mp h4, hE.mp h5⟩
        | (exfalso; omega)
    · rintro ⟨c1, c2, c3, c4, c5⟩
      have e1 := hA.mpr c1
      have e2 := hB.mpr c2
      have e3 := hC.mpr c3
      have e4 := hD.mpr c4
      have e5 := hE.mpr c5
      omega

/-- C9: getSoilTexture always returns one of the four categories, the
category is decided by the first matching rule in the fixed order clay,
sand, silt, and in particular a sample with both clay above 40 and sand
above 60 is classified Clay. -/
theorem getSoilTexture_spec (sand clay silt : ℚ) :
    ((getSoilTexture sand clay silt).type ∈ (["Clay", "Sandy", "Silty", "Loam"] : List String))
    ∧ ((getSoilTexture sand clay silt).type = "Clay" ↔ clay > 40)
    ∧ ((getSoilTexture sand clay silt).type = "Sandy" ↔ (¬clay > 40 ∧ sand > 60))
    ∧ ((getSoilTexture sand clay silt).type = "Silty" ↔ (¬clay > 40 ∧ ¬sand > 60 ∧ silt > 40))
    ∧ ((getSoilTexture sand clay silt).type = "Loam" ↔ (¬clay > 40 ∧ ¬sand > 60 ∧ ¬silt > 40))
    ∧ (clay > 40 → sand > 60 → (getSoilTexture sand clay silt).type = "Clay") := by
  simp only [getSoilTexture]
  split_ifs <;> simp_all

/-- C7: the weather based recommendation list contains the named high
humidity warning exactly when the humidity of the snapshot exceeds 80. -/
theorem weatherRecommendations_highHumidity_spec (w : WeatherSnapshot) :
    "High humidity - monitor for fungal diseases" ∈ weatherRecommendations w ↔
      w.humidity > 80 := by
  simp only [weatherRecommendations, List.mem_append]
  split_ifs <;> simp_all

/-- C8: when the caller supplies no years_back value, both request
builders send years_back equal to 5. -/
theorem historicalAnalysis_yearsBack_default_spec (latitude longitude : ℚ) :
    (getHistoricalAnalysisBody latitude longitude none).years_back = 5
    ∧ (fetchHistoricalInsightsBody latitude longitude).years_back = 5 := by
  exact ⟨rfl, rfl⟩

theorem charListLt_iff (as bs : List Char) : charListLt as bs = true ↔ as < bs := by
  induction as generalizing bs with
  | nil =>
    cases bs with
    | nil =>
      constructor
      · intro h
        simp [charListLt] at h
      · intro h
        cases h
    | cons b bs =>
      constructor
      · intro _
        exact List.Lex.nil
      · intro _
        rfl
  | cons a as ih =>
    cases bs with
    | nil =>
      constructor
      · intro h
        simp [charListLt] at h
      · intro h
        cases h
    | cons b bs =>
      simp only [charListLt]
      split_ifs with h1 h2
      · constructor
        · intro _
          exact List.Lex.rel h1
        · intro _
          rfl
      · constructor
        · intro h
          simp at h
        · intro h
          cases h with
          | cons h3 => exact absurd h2 (lt_irrefl a)
          | rel h3 => exact absurd h3 h1
      · have hab : a = b := le_antisymm (not_lt.mp h2) (not_lt.mp h1)
        subst hab
        rw [ih bs]
        constructor
        · intro h
          exact List.Lex.cons h
        · intro h
          cases h with
          | cons h3 => exact h3
          | rel h3 => exact absurd h3 h1

theorem strLe_iff (a b : String) : strLe a b = true ↔ a ≤ b := by
  have hb : charListLt b.data a.data = true ↔ b < a := by
    rw [charListLt_iff]
    exact (@String.lt_iff_toList_lt b a).symm
  rw [strLe, ← not_lt, ← hb]
  cases charListLt b.data a.data <;> simp

theorem jsNumLe_iff (a b : ℤ) : jsNumLe a b = true ↔ toString a ≤ toString b := by
  rw [jsNumLe, strLe_iff]

theorem jsIndexOf_of_get (l : List ℤ) (hl : l.Nodup) (i : ℕ) (hi : i < l.length) :
    jsIndexOf l (l.get ⟨i, hi⟩) = some i := by
  induction l generalizing i with
  | nil => simp at hi
  | cons a l ih =>
    rcases List.nodup_cons.mp hl with ⟨ha, hl2⟩
    cases i with
    | zero => simp [jsIndexOf]
    | succ j =>
      have hj : j < l.length := by simpa using hi
      have hmem : l.get ⟨j, hj⟩ ∈ l := List.get_mem l j hj
      have hne : a ≠ l.get ⟨j, hj⟩ := fun h => ha (h ▸ hmem)
      simp only [jsIndexOf, List.get_cons_succ]
      rw [if_neg hne, ih hl2 j hj]
      rfl

theorem listLookup_upsertEntry_self (acc : List (String × Option ℚ)) (c : String)
    (v : Option ℚ) : listLookup (upsertEntry acc c v) c = some v := by
  induction acc with
  | nil => simp [upsertEntry, listLookup]
  | cons e rest ih =>
    obtain ⟨c0, v0⟩ := e
    simp only [upsertEntry]
    split_ifs with h
    · simp [listLookup, h]
    · simp [listLookup, h, ih]

theorem listLookup_upsertEntry_other (acc : List (String × Option ℚ)) (c c0 : String)
    (v : Option ℚ) (h : c ≠ c0) :
    listLookup (upsertEntry acc c v) c0 = listLookup acc c0 := by
  induction acc with
  | nil => simp [upsertEntry, listLookup, h]
  | cons e rest ih =>
    obtain ⟨c1, v1⟩ := e
    simp only [upsertEntry]
    split_ifs with h1
    · subst h1
      simp [listLookup, h, Ne.symm h]
    · simp only [listLookup]
      split_ifs with h2
      · rfl
      · exact ih

theorem listLookup_foldl_not_mem (year : ℤ) (ts : List TrendSummary)
    (acc : List (String × Option ℚ)) (c : String) (hc : ∀ t ∈ ts, t.crop ≠ c) :
    listLookup (ts.foldl (yieldRowStep year) acc) c = listLookup acc c := by
  induction ts generalizing acc with
  | nil => rfl
  | cons t ts ih =>
    simp only [List.foldl_cons]
    rw [ih _ (fun u hu => hc u (List.mem_cons_of_mem t hu))]
    simp only [yieldRowStep]
    cases jsIndexOf t.years year with
    | none => rfl
    | some i => exact listLookup_upsertEntry_other acc t.crop c _ (hc t (List.mem_cons_self t ts))

theorem listLookup_foldl_mem (year : ℤ) (ts : List TrendSummary)
    (t : TrendSummary) (ht : t ∈ ts) (hcrop : (ts.map TrendSummary.crop).Nodup)
    (i : ℕ) (hy : jsIndexOf t.years year = some i) (acc : List (String × Option ℚ)) :
    listLookup (ts.foldl (yieldRowStep year) acc) t.crop = some (t.yields.get? i) := by
  induction ts generalizing acc with
  | nil => simp at ht
  | cons u ts ih =>
    simp only [List.map_cons, List.nodup_cons] at hcrop
    rcases List.mem_cons.mp ht with rfl | hts
    · simp only [List.foldl_cons]
      rw [listLookup_foldl_not_mem year ts _ t.crop
        (fun w hw hEq => hcrop.1 (hEq ▸ List.mem_map_of_mem TrendSummary.crop hw))]
      simp only [yieldRowStep, hy]
      exact listLookup_upsertEntry_self acc t.crop (t.yields.get? i)
    · simp only [List.foldl_cons]
      exact ih hts hcrop.2 _

/-- C2 counterexample: with a single trend whose years are 9 and 10 the
rows come back with years 10 then 9, because the default JavaScript sort
compares decimal strings, so the rows are not in strictly increasing
numeric year order. -/
theorem formatYieldData_stringSort_counterexample :
    ((formatYieldData [{ crop := "Rice", years := [9, 10], yields := [1, 2] }]).map
        YieldRow.year = [10, 9])
    ∧ ¬ List.Pairwise (fun a b : ℤ => a < b)
        ((formatYieldData [{ crop := "Rice", years := [9, 10], yields := [1, 2] }]).map
          YieldRow.year) := by
  constructor
  · decide
  · intro h
    have : (10 : ℤ) < 9 := by
      have e : (formatYieldData [{ crop := "Rice", years := [9, 10], yields := [1, 2] }]).map
          YieldRow.year = [10, 9] := by decide
      rw [e] at h
      exact List.rel_of_pairwise_cons h (List.mem_singleton.mpr rfl)
    omega

/-- C2 amended: for trends with pairwise distinct crop names and
pairwise distinct years inside each trend, formatYieldData returns one
row per distinct year occurring in any trend; the rows are pairwise
distinct and ordered by non-decreasing decimal-string comparison of the
year (which agrees with strictly increasing numeric order whenever all
years have equally many digits); and for every trend containing a given
year, that row maps the crop of the trend to the yield stored at the
index of that year in the years array of the trend. -/
theorem formatYieldData_rows_spec (trends : List TrendSummary)
    (hcrop : (trends.map TrendSummary.crop).Nodup)
    (hyears : ∀ t ∈ trends, t.years.Nodup) :
    (((formatYieldData trends).map YieldRow.year).Nodup
      ∧ List.Pairwise (fun a b : ℤ => toString a ≤ toString b ∧ a ≠ b)
          ((formatYieldData trends).map YieldRow.year))
    ∧ (∀ y : ℤ, y ∈ (formatYieldData trends).map YieldRow.year ↔
        ∃ t ∈ trends, y ∈ t.years)
    ∧ (∀ t ∈ trends, ∀ i : ℕ, (hi : i < t.years.length) →
        ∃ r ∈ formatYieldData trends, r.year = t.years.get ⟨i, hi⟩
          ∧ listLookup r.entries t.crop = some (t.yields.get? i)) := by
  cases trends with
  | nil =>
    refine ⟨⟨by simp [formatYieldData], by simp [formatYieldData]⟩, ?_, ?_⟩
    · intro y
      simp [formatYieldData]
    · intro t ht
      simp at ht
  | cons t0 rest =>
    set ts := t0 :: rest with hts
    have hformat : formatYieldData ts
        = (sortLe jsNumLe ((ts.map TrendSummary.years).flatten.dedup)).map (rowFor ts) := by
      rw [hts]
      rfl
    set allYears := sortLe jsNumLe ((ts.map TrendSummary.years).flatten.dedup) with hay
    have hperm : allYears.Perm ((ts.map TrendSummary.years).flatten.dedup) :=
      perm_sortLe _ _
    have hmapyear : (formatYieldData ts).map YieldRow.year = allYears := by
      rw [hformat, List.map_map]
      exact List.map_id _
    have hnodup : allYears.Nodup := hperm.nodup_iff.mpr (List.nodup_dedup _)
    have htrans : ∀ a b c : ℤ, jsNumLe a b = true → jsNumLe b c = true →
        jsNumLe a c = true := by
      intro a b c hab hbc
      rw [jsNumLe_iff] at *
      exact le_trans hab hbc
    have htotal : ∀ a b : ℤ, jsNumLe a b = true ∨ jsNumLe b a = true := by
      intro a b
      rw [jsNumLe_iff, jsNumLe_iff]
      exact le_total _ _
    have hsorted : allYears.Pairwise (fun a b => jsNumLe a b = true) :=
      pairwise_sortLe jsNumLe htrans htotal _
    refine ⟨⟨?_, ?_⟩, ?_, ?_⟩
    · rw [hmapyear]
      exact hnodup
    · rw [hmapyear]
      have := List.Pairwise.and hsorted hnodup
      exact this.imp (fun h => ⟨(jsNumLe_iff _ _).mp h.1, h.2⟩)
    · intro y
      rw [hmapyear, hay]
      rw [List.Perm.mem_iff hperm, List.mem_dedup, List.mem_flatten]
      constructor
      · rintro ⟨l, hl, hyl⟩
        rcases List.mem_map.mp hl with ⟨t, htt, rfl⟩
        exact ⟨t, htt, hyl⟩
      · rintro ⟨t, htt, hyl⟩
        exact ⟨t.years, List.mem_map_of_mem TrendSummary.years htt, hyl⟩
    · intro t ht i hi
      set y := t.years.get ⟨i, hi⟩ with hy
      have hymem : y ∈ allYears := by
        rw [hay, List.Perm.mem_iff hperm, List.mem_dedup, List.mem_flatten]
        exact ⟨t.years, List.mem_map_of_mem TrendSummary.years ht, List.get_mem t.years i hi⟩
      refine ⟨rowFor ts y, ?_, rfl, ?_⟩
      · rw [hformat]
        exact List.mem_map_of_mem (rowFor ts) hymem
      · exact listLookup_foldl_mem y ts t ht hcrop i
          (jsIndexOf_of_get t.years (hyears t ht) i hi) []

/-- Witness for C2 at concrete trends. -/
theorem formatYieldData_rows_spec_witness :
    (((([{ crop := "Rice", years := [2020, 2021], yields := [3, 4] },
          { crop := "Wheat", years := [2021], yields := [5] }] : List TrendSummary).map
            TrendSummary.crop).Nodup)
      ∧ (∀ t ∈ ([{ crop := "Rice", years := [2020, 2021], yields := [3, 4] },
          { crop := "Wheat", years := [2021], yields := [5] }] : List TrendSummary),
            t.years.Nodup))
    ∧ ((formatYieldData [{ crop := "Rice", years := [2020, 2021], yields := [3, 4] },
          { crop := "Wheat", years := [2021], yields := [5] }]).map YieldRow.year).Nodup := by
  refine ⟨⟨by decide, by decide⟩, ?_⟩
  exact (formatYieldData_rows_spec
    [{ crop := "Rice", years := [2020, 2021], yields := [3, 4] },
     { crop := "Wheat", years := [2021], yields := [5] }]
    (by decide) (by decide)).1.1

theorem addPrediction_map_year_mem (data : List ChartRow) (p : PredictionItem)
    (h : p.year ∈ data.map ChartRow.year) :
    (addPrediction data p).map ChartRow.year = data.map ChartRow.year := by
  induction data with
  | nil => simp at h
  | cons r rs ih =>
    simp only [addPrediction]
    split_ifs with h1
    · simp [h1]
    · have : p.year ∈ rs.map ChartRow.year := by
        rcases List.mem_map.mp h with ⟨q, hq, hqy⟩
        rcases List.mem_cons.mp hq with rfl | hqrs
        · exact absurd hqy h1
        · exact hqy ▸ List.mem_map_of_mem ChartRow.year hqrs
      simp [ih this]

theorem addPrediction_map_year_not_mem (data : List ChartRow) (p : PredictionItem)
    (h : p.year ∉ data.map ChartRow.year) :
    (addPrediction data p).map ChartRow.year = data.map ChartRow.year ++ [p.year] := by
  induction data with
  | nil => simp [addPrediction]
  | cons r rs ih =>
    simp only [addPrediction]
    split_ifs with h1
    · exact absurd (h1 ▸ List.mem_map_of_mem ChartRow.year (List.mem_cons_self r rs)) h
    · have : p.year ∉ rs.map ChartRow.year := fun hm =>
        h (List.mem_cons_of_mem r.year (by simpa using hm))
      simp [ih this]

theorem addPrediction_nodup (data : List ChartRow) (p : PredictionItem)
    (h : (data.map ChartRow.year).Nodup) :
    ((addPrediction data p).map ChartRow.year).Nodup := by
  by_cases hm : p.year ∈ data.map ChartRow.year
  · rw [addPrediction_map_year_mem data p hm]
    exact h
  · rw [addPrediction_map_year_not_mem data p hm]
    simp [List.nodup_append, h, hm]

theorem addPrediction_preserves (data : List ChartRow) (p : PredictionItem)
    (r : ChartRow) (hr : r ∈ data) :
    ∃ q ∈ addPrediction data p, q.year = r.year ∧ q.historical = r.historical
      ∧ (q.predicted = r.predicted ∨ q.predicted = some p.predicted_yield_tons) := by
  induction data with
  | nil => simp at hr
  | cons r0 rs ih =>
    simp only [addPrediction]
    split_ifs with h1
    · rcases List.mem_cons.mp hr with rfl | hrs
      · exact ⟨{ r with predicted := some p.predicted_yield_tons },
          List.mem_cons_self _ _, rfl, rfl, Or.inr rfl⟩
      · exact ⟨r, List.mem_cons_of_mem _ hrs, rfl, rfl, Or.inl rfl⟩
    · rcases List.mem_cons.mp hr with rfl | hrs
      · exact ⟨r, List.mem_cons_self _ _, rfl, rfl, Or.inl rfl⟩
      · rcases ih hrs with ⟨q, hq, h2, h3, h4⟩
        exact ⟨q, List.mem_cons_of_mem _ hq, h2, h3, h4⟩

theorem addPrediction_covers (data : List ChartRow) (p : PredictionItem) :
    ∃ q ∈ addPrediction data p, q.year = p.year
      ∧ q.predicted = some p.predicted_yield_tons := by
  induction data with
  | nil => exact ⟨_, List.mem_cons_self _ _, rfl, rfl⟩
  | cons r0 rs ih =>
    simp only [addPrediction]
    split_ifs with h1
    · exact ⟨{ r0 with predicted := some p.predicted_yield_tons },
        List.mem_cons_self _ _, h1, rfl⟩
    · rcases ih with ⟨q, hq, h2, h3⟩
      exact ⟨q, List.mem_cons_of_mem _ hq, h2, h3⟩

theorem addCustom_map_year_mem (data : List ChartRow) (c : PredictionItem)
    (h : c.year ∈ data.map ChartRow.year) :
    (addCustom data c).map ChartRow.year = data.map ChartRow.year := by
  induction data with
  | nil => simp at h
  | cons r rs ih =>
    simp only [addCustom]
    split_ifs with h1
    · simp [h1]
    · have : c.year ∈ rs.map ChartRow.year := by
        rcases List.mem_map.mp h with ⟨q, hq, hqy⟩
        rcases List.mem_cons.mp hq with rfl | hqrs
        · exact absurd hqy h1
        · exact hqy ▸ List.mem_map_of_mem ChartRow.year hqrs
      simp [ih this]

theorem addCustom_map_year_not_mem (data : List ChartRow) (c : PredictionItem)
    (h : c.year ∉ data.map ChartRow.year) :
    (addCustom data c).map ChartRow.year = data.map ChartRow.year ++ [c.year] := by
  induction data with
  | nil => simp [addCustom]
  | cons r rs ih =>
    simp only [addCustom]
    split_ifs with h1
    · exact absurd (h1 ▸ List.mem_map_of_mem ChartRow.year (List.mem_cons_self r rs)) h
    · have : c.year ∉ rs.map ChartRow.year := fun hm =>
        h (List.mem_cons_of_mem r.year (by simpa using hm))
      simp [ih this]

theorem addCustom_nodup (data : List ChartRow) (c : PredictionItem)
    (h : (data.map ChartRow.year).Nodup) :
    ((addCustom data c).map ChartRow.year).Nodup := by
  by_cases hm : c.year ∈ data.map ChartRow.year
  · rw [addCustom_map_year_mem data c hm]
    exact h
  · rw [addCustom_map_year_not_mem data c hm]
    simp [List.nodup_append, h, hm]

theorem addCustom_preserves (data : List ChartRow) (c : PredictionItem)
    (r : ChartRow) (hr : r ∈ data) :
    ∃ q ∈ addCustom data c, q.year = r.year ∧ q.historical = r.historical
      ∧ q.predicted = r.predicted := by
  induction data with
  | nil => simp at hr
  | cons r0 rs ih =>
    simp only [addCustom]
    split_ifs with h1
    · rcases List.mem_cons.mp hr with rfl | hrs
      · exact ⟨{ r with custom := some c.predicted_yield_tons },
          List.mem_cons_self _ _, rfl, rfl, rfl⟩
      · exact ⟨r, List.mem_cons_of_mem _ hrs, rfl, rfl, rfl⟩
    · rcases List.mem_cons.mp hr with rfl | hrs
      · exact ⟨r, List.mem_cons_self _ _, rfl, rfl, rfl⟩
      · rcases ih hrs with ⟨q, hq, h2, h3, h4⟩
        exact ⟨q, List.mem_cons_of_mem _ hq, h2, h3, h4⟩

theorem foldPred_nodup (ps : List PredictionItem) (data : List ChartRow)
    (h : (data.map ChartRow.year).Nodup) :
    (((ps.foldl addPrediction data)).map ChartRow.year).Nodup := by
  induction ps generalizing data with
  | nil => exact h
  | cons p ps ih => exact ih _ (addPrediction_nodup data p h)

theorem foldPred_preserves (ps : List PredictionItem) (data : List ChartRow)
    (r : ChartRow) (hr : r ∈ data) :
    ∃ q ∈ ps.foldl addPrediction data, q.year = r.year ∧ q.historical = r.historical
      ∧ (r.predicted.isSome = true → q.predicted.isSome = true) := by
  induction ps generalizing data r with
  | nil => exact ⟨r, hr, rfl, rfl, fun h => h⟩
  | cons p ps ih =>
    rcases addPrediction_preserves data p r hr with ⟨q1, hq1, e1, e2, e3⟩
    rcases ih (addPrediction data p) q1 hq1 with ⟨q, hq, f1, f2, f3⟩
    refine ⟨q, hq, f1.trans e1, f2.trans e2, ?_⟩
    intro hs
    apply f3
    rcases e3 with e3 | e3
    · rw [e3]
      exact hs
    · rw [e3]
      rfl

theorem foldPred_covers (ps : List PredictionItem) (data : List ChartRow)
    (p : PredictionItem) (hp : p ∈ ps) :
    ∃ q ∈ ps.foldl addPrediction data, q.year = p.year ∧ q.predicted.isSome = true := by
  induction ps generalizing data with
  | nil => simp at hp
  | cons p0 ps ih =>
    rcases List.mem_cons.mp hp with rfl | hps
    · rcases addPrediction_covers data p with ⟨q1, hq1, e1, e2⟩
      rcases foldPred_preserves ps (addPrediction data p) q1 hq1 with ⟨q, hq, f1, _, f3⟩
      exact ⟨q, hq, f1.trans e1, f3 (by rw [e2]; rfl)⟩
    · exact ih (addPrediction data p0) hps

/-- C10: for historical entries with pairwise distinct years, the
combined chart data has at most one row per year, is sorted by year in
non-decreasing order, preserves every historical yield value, and every
prediction that shares a year with an existing row is merged into it
rather than adding a second row, its value landing in the predicted
field of the unique row for that year. -/
theorem loadVisualizationData_spec (historical : List HistoricalItem)
    (predictions : List PredictionItem) (customPrediction : Option PredictionItem)
    (hn : (historical.map HistoricalItem.year).Nodup) :
    (((loadVisualizationData historical predictions customPrediction).map
        ChartRow.year).Nodup)
    ∧ List.Pairwise (fun a b : ChartRow => a.year ≤ b.year)
        (loadVisualizationData historical predictions customPrediction)
    ∧ (∀ h ∈ historical, ∃ r ∈ loadVisualizationData historical predictions customPrediction,
        r.year = h.year ∧ r.historical = some h.yield_tons)
    ∧ (∀ p ∈ predictions, ∃ r ∈ loadVisualizationData historical predictions customPrediction,
        r.year = p.year ∧ r.predicted.isSome = true) := by
  classical
  set base := historical.map histRow with hbase
  set withPred := predictions.foldl addPrediction base with hwp
  set withCustom := applyCustom withPred customPrediction with hwc
  have hload : loadVisualizationData historical predictions customPrediction
      = sortLe chartYearLe withCustom := rfl
  have hbase_nodup : (base.map ChartRow.year).Nodup := by
    rw [hbase, List.map_map]
    exact hn
  have hwp_nodup : (withPred.map ChartRow.year).Nodup := foldPred_nodup _ _ hbase_nodup
  have hwc_nodup : (withCustom.map ChartRow.year).Nodup := by
    rw [hwc]
    cases customPrediction with
    | none => exact hwp_nodup
    | some c =>
      simp only [applyCustom]
      by_cases hcond : c.year ≠ 0 ∧ c.predicted_yield_tons ≠ 0
      · rw [if_pos hcond]
        exact addCustom_nodup _ _ hwp_nodup
      · rw [if_neg hcond]
        exact hwp_nodup
  have hperm : (sortLe chartYearLe withCustom).Perm withCustom := perm_sortLe _ _
  have hwc_preserves : ∀ r ∈ withPred, ∃ q ∈ withCustom, q.year = r.year
      ∧ q.historical = r.historical ∧ q.predicted = r.predicted := by
    intro r hr
    rw [hwc]
    cases customPrediction with
    | none => exact ⟨r, hr, rfl, rfl, rfl⟩
    | some c =>
      simp only [applyCustom]
      by_cases hcond : c.year ≠ 0 ∧ c.predicted_yield_tons ≠ 0
      · rw [if_pos hcond]
        exact addCustom_preserves withPred c r hr
      · rw [if_neg hcond]
        exact ⟨r, hr, rfl, rfl, rfl⟩
  refine ⟨?_, ?_, ?_, ?_⟩
  · rw [hload]
    exact ((hperm.map ChartRow.year).nodup_iff).mpr hwc_nodup
  · rw [hload]
    have htrans : ∀ a b c : ChartRow, chartYearLe a b = true → chartYearLe b c = true →
        chartYearLe a c = true := by
      intro a b c hab hbc
      simp only [chartYearLe, decide_eq_true_eq] at *
      omega
    have htotal : ∀ a b : ChartRow, chartYearLe a b = true ∨ chartYearLe b a = true := by
      intro a b
      simp only [chartYearLe, decide_eq_true_eq]
      omega
    have := pairwise_sortLe chartYearLe htrans htotal withCustom
    exact this.imp (fun h => by simpa [chartYearLe] using h)
  · intro h hh
    have hb : histRow h ∈ base := by
      rw [hbase]
      exact List.mem_map_of_mem histRow hh
    rcases foldPred_preserves predictions base _ hb with ⟨q1, hq1, e1, e2, _⟩
    rcases hwc_preserves q1 hq1 with ⟨q, hq, f1, f2, _⟩
    refine ⟨q, ?_, f1.trans e1, f2.trans e2⟩
    rw [hload, List.Perm.mem_iff hperm]
    exact hq
  · intro p hp
    rcases foldPred_covers predictions base p hp with ⟨q1, hq1, e1, e2⟩
    rcases hwc_preserves q1 hq1 with ⟨q, hq, f1, _, f3⟩
    refine ⟨q, ?_, f1.trans e1, by rw [f3]; exact e2⟩
    rw [hload, List.Perm.mem_iff hperm]
    exact hq

/-- Witness for C10 at concrete inputs. -/
theorem loadVisualizationData_spec_witness :
    ((([{ year := 2020, yield_tons := 5 }, { year := 2021, yield_tons := 6 }] :
        List HistoricalItem).map HistoricalItem.year).Nodup)
    ∧ (∀ p ∈ ([{ year := 2021, predicted_yield_tons := 7 },
          { year := 2024, predicted_yield_tons := 8 }] : List PredictionItem),
        ∃ r ∈ loadVisualizationData
            [{ year := 2020, yield_tons := 5 }, { year := 2021, yield_tons := 6 }]
            [{ year := 2021, predicted_yield_tons := 7 },
             { year := 2024, predicted_yield_tons := 8 }]
            (some { year := 2024, predicted_yield_tons := 9 }),
          r.year = p.year ∧ r.predicted.isSome = true) := by
  refine ⟨by decide, ?_⟩
  exact (loadVisualizationData_spec
    [{ year := 2020, yield_tons := 5 }, { year := 2021, yield_tons := 6 }]
    [{ year := 2021, predicted_yield_tons := 7 }, { year := 2024, predicted_yield_tons := 8 }]
    (some { year := 2024, predicted_yield_tons := 9 }) (by decide)).2.2.2

theorem cacheFind_cachePut {α : Type} (s : CacheStore α) (category key : String)
    (payload : α) (ttl now : ℤ) :
    cacheFind (cachePut s category key payload ttl now) (category, key)
      = some { payload := payload, created_at := now, expires_at := now + ttl } := by
  induction s with
  | nil => simp [cachePut, cacheFind]
  | cons e rest ih =>
    simp only [cachePut]
    split_ifs with h
    · simp [cacheFind]
    · simp only [cacheFind]
      rw [if_neg h]
      exact ih

/-- C5: for a positive ttl, a get performed immediately after a put of
the same category and key returns the stored payload, and once the clock
has advanced past the expiry instant now + ttl the same get reports a
miss. -/
theorem cache_put_get_spec {α : Type} (s : CacheStore α) (category key : String)
    (payload : α) (ttl now later : ℤ) (httl : 0 < ttl) :
    cacheGet (cachePut s category key payload ttl now) category key now = some payload
    ∧ (now + ttl < later →
        cacheGet (cachePut s category key payload ttl now) category key later = none) := by
  constructor
  · rw [cacheGet, cacheFind_cachePut]
    simp only []
    rw [if_pos (by omega)]
  · intro hlater
    rw [cacheGet, cacheFind_cachePut]
    simp only []
    rw [if_neg (by omega)]

/-- Witness for C5 at concrete inputs. -/
theorem cache_put_get_spec_witness :
    cacheGet (cachePut ([] : CacheStore String) "current_weather" "28.61,77.21" "sunny" 3600 0)
        "current_weather" "28.61,77.21" 0 = some "sunny"
    ∧ cacheGet (cachePut ([] : CacheStore String) "current_weather" "28.61,77.21" "sunny" 3600 0)
        "current_weather" "28.61,77.21" 3601 = none := by
  constructor
  · exact (cache_put_get_spec [] "current_weather" "28.61,77.21" "sunny" 3600 0 3601
      (by norm_num)).1
  · exact (cache_put_get_spec [] "current_weather" "28.61,77.21" "sunny" 3600 0 3601
      (by norm_num)).2 (by norm_num)

theorem clamp01_bounds (x : ℚ) : 0 ≤ clamp01 x ∧ clamp01 x ≤ 1 := by
  unfold clamp01
  constructor
  · exact le_max_left 0 _
  · exact max_le (by norm_num) (min_le_left 1 x)

theorem temperature_compat_bounds (w : WeatherSnapshot) (p : CropProfile) :
    0 ≤ temperature_compat w p ∧ temperature_compat w p ≤ 1 := by
  rcases hp : p.temperature with _ | t
  · simp only [temperature_compat, hp]
    norm_num
  · simp only [temperature_compat, hp]
    exact clamp01_bounds _

theorem soil_ph_compat_bounds (s : SoilSnapshot) (p : CropProfile) :
    0 ≤ soil_ph_compat s p ∧ soil_ph_compat s p ≤ 1 := by
  rcases hp : p.ph_band with _ | b
  · simp only [soil_ph_compat, hp]
    norm_num
  · simp only [soil_ph_compat, hp]
    split_ifs
    · norm_num
    · exact clamp01_bounds _
    · exact clamp01_bounds _

theorem categoricalMatch_bounds (value : String) (aff : Option Affinity) :
    0 ≤ categoricalMatch value aff ∧ categoricalMatch value aff ≤ 1 := by
  rcases aff with _ | a
  · simp only [categoricalMatch]
    norm_num
  · simp only [categoricalMatch]
    split_ifs <;> norm_num

theorem nutrient_availability_bounds (s : SoilSnapshot) (p : CropProfile) :
    0 ≤ nutrient_availability s p ∧ nutrient_availability s p ≤ 1 := by
  rcases hp : p.nutrients with _ | r
  · simp only [nutrient_availability, hp]
    norm_num
  · simp only [nutrient_availability, hp]
    obtain ⟨h1a, h1b⟩ := clamp01_bounds (max 0 s.nitrogen / r.nitrogen)
    obtain ⟨h2a, h2b⟩ := clamp01_bounds (max 0 s.phosphorus / r.phosphorus)
    obtain ⟨h3a, h3b⟩ := clamp01_bounds (max 0 s.potassium / r.potassium)
    constructor <;> [linarith; linarith]

/-- C4: the five fixed weights sum to exactly one, every sub-score lies
in the unit interval, the returned score is exactly
round(100 times the weighted sum of the sub-scores), and it is an
integer between 0 and 100. -/
theorem suitability_score_spec (w : WeatherSnapshot) (s : SoilSnapshot) (zone : String)
    (p : CropProfile) :
    ((0.25 : ℚ) + 0.20 + 0.20 + 0.15 + 0.20 = 1)
    ∧ (0 ≤ temperature_compat w p ∧ temperature_compat w p ≤ 1)
    ∧ (0 ≤ soil_ph_compat s p ∧ soil_ph_compat s p ≤ 1)
    ∧ (0 ≤ categoricalMatch zone p.zone_affinity ∧ categoricalMatch zone p.zone_affinity ≤ 1)
    ∧ (0 ≤ categoricalMatch (getSoilTexture s.sand s.clay s.silt).type p.texture_affinity
        ∧ categoricalMatch (getSoilTexture s.sand s.clay s.silt).type p.texture_affinity ≤ 1)
    ∧ (0 ≤ nutrient_availability s p ∧ nutrient_availability s p ≤ 1)
    ∧ suitability_score w s zone p
        = round (100 * (0.25 * temperature_compat w p + 0.20 * soil_ph_compat s p
            + 0.20 * categoricalMatch zone p.zone_affinity
            + 0.15 * categoricalMatch (getSoilTexture s.sand s.clay s.silt).type
                p.texture_affinity
            + 0.20 * nutrient_availability s p))
    ∧ (0 ≤ suitability_score w s zone p ∧ suitability_score w s zone p ≤ 100) := by
  obtain ⟨h1a, h1b⟩ := temperature_compat_bounds w p
  obtain ⟨h2a, h2b⟩ := soil_ph_compat_bounds s p
  obtain ⟨h3a, h3b⟩ := categoricalMatch_bounds zone p.zone_affinity
  obtain ⟨h4a, h4b⟩ := categoricalMatch_bounds
    (getSoilTexture s.sand s.clay s.silt).type p.texture_affinity
  obtain ⟨h5a, h5b⟩ := nutrient_availability_bounds s p
  have htot0 : 0 ≤ suitabilityTotal w s zone p := by
    unfold suitabilityTotal
    nlinarith
  have htot1 : suitabilityTotal w s zone p ≤ 1 := by
    unfold suitabilityTotal
    nlinarith
  refine ⟨by norm_num, ⟨h1a, h1b⟩, ⟨h2a, h2b⟩, ⟨h3a, h3b⟩, ⟨h4a, h4b⟩, ⟨h5a, h5b⟩, rfl, ?_, ?_⟩
  · rw [suitability_score, round_eq]
    refine Int.le_floor.mpr ?_
    push_cast
    nlinarith
  · rw [suitability_score, round_eq]
    have : (⌊100 * suitabilityTotal w s zone p + 1 / 2⌋ : ℤ) < 101 := by
      refine Int.floor_lt.mpr ?_
      push_cast
      nlinarith
    omega

theorem recLe_iff (a b : ScoredCrop) : recLe a b = true ↔ recRel a b := by
  simp only [recLe, recRel]
  split_ifs with h1 h2
  · rw [strLe_iff]
    constructor
    · intro h
      exact Or.inr ⟨h1, Or.inr ⟨h2, h⟩⟩
    · rintro (h | ⟨-, h | ⟨-, h⟩⟩)
      · exact absurd h (by omega)
      · rw [h2] at h
        exact absurd h (lt_irrefl _)
      · exact h
  · rw [decide_eq_true_eq]
    constructor
    · intro h
      exact Or.inr ⟨h1, Or.inl h⟩
    · rintro (h | ⟨-, h | ⟨h3, -⟩⟩)
      · exact absurd h (by omega)
      · exact h
      · exact absurd h3 h2
  · rw [decide_eq_true_eq]
    constructor
    · intro h
      exact Or.inl h
    · rintro (h | ⟨h3, -⟩)
      · exact h
      · exact absurd h3 h1

theorem recRel_trans (a b c : ScoredCrop) (hab : recRel a b) (hbc : recRel b c) :
    recRel a c := by
  rcases hab with h | ⟨e1, hab2⟩
  · rcases hbc with h2 | ⟨e2, -⟩
    · exact Or.inl (lt_trans h2 h)
    · exact Or.inl (by omega)
  · rcases hbc with h2 | ⟨e2, hbc2⟩
    · exact Or.inl (by omega)
    · refine Or.inr ⟨e1.trans e2, ?_⟩
      rcases hab2 with hpm | ⟨ep1, hc1⟩
      · rcases hbc2 with hpm2 | ⟨ep2, -⟩
        · exact Or.inl (lt_trans hpm2 hpm)
        · exact Or.inl (ep2 ▸ hpm)
      · rcases hbc2 with hpm2 | ⟨ep2, hc2⟩
        · exact Or.inl (ep1 ▸ hpm2)
        · exact Or.inr ⟨ep1.trans ep2, le_trans hc1 hc2⟩

theorem recRel_total (a b : ScoredCrop) : recRel a b ∨ recRel b a := by
  rcases lt_trichotomy a.score b.score with h | h | h
  · exact Or.inr (Or.inl h)
  · rcases lt_trichotomy a.profit_margin b.profit_margin with h2 | h2 | h2
    · exact Or.inr (Or.inr ⟨h.symm, Or.inl h2⟩)
    · rcases le_total a.crop b.crop with h3 | h3
      · exact Or.inl (Or.inr ⟨h, Or.inr ⟨h2, h3⟩⟩)
      · exact Or.inr (Or.inr ⟨h.symm, Or.inr ⟨h2.symm, h3⟩⟩)
    · exact Or.inl (Or.inr ⟨h, Or.inl h2⟩)
  · exact Or.inl (Or.inl h)

theorem mem_assignRanks (n : ℕ) (l : List ScoredCrop) (q : RankedCrop)
    (hq : q ∈ assignRanks n l) :
    ∃ r ∈ l, q.crop = r.crop ∧ q.score = r.score ∧ q.profit_margin = r.profit_margin := by
  induction l generalizing n with
  | nil => simp [assignRanks] at hq
  | cons r rest ih =>
    simp only [assignRanks] at hq
    rcases List.mem_cons.mp hq with rfl | hq2
    · exact ⟨r, List.mem_cons_self _ _, rfl, rfl, rfl⟩
    · rcases ih (n + 1) hq2 with ⟨r2, hr2, e⟩
      exact ⟨r2, List.mem_cons_of_mem _ hr2, e⟩

theorem pairwise_assignRanks (n : ℕ) (l : List ScoredCrop)
    (h : l.Pairwise recRel) : (assignRanks n l).Pairwise rankedRel := by
  induction l generalizing n with
  | nil => simp [assignRanks]
  | cons r rest ih =>
    rcases List.pairwise_cons.mp h with ⟨hr, hrest⟩
    simp only [assignRanks]
    refine List.pairwise_cons.mpr ⟨?_, ih (n + 1) hrest⟩
    intro q hq
    rcases mem_assignRanks (n + 1) rest q hq with ⟨r2, hr2, e1, e2, e3⟩
    have := hr r2 hr2
    simp only [rankedRel, e1, e2, e3]
    exact this

theorem map_rank_assignRanks (n : ℕ) (l : List ScoredCrop) :
    (assignRanks n l).map RankedCrop.rank = List.range' n l.length := by
  induction l generalizing n with
  | nil => simp [assignRanks]
  | cons r rest ih =>
    simp [assignRanks, ih (n + 1), List.range'_succ]

theorem map_fields_assignRanks (n : ℕ) (l : List ScoredCrop) :
    (assignRanks n l).map (fun q => (q.crop, q.score, q.profit_margin))
      = l.map (fun r => (r.crop, r.score, r.profit_margin)) := by
  induction l generalizing n with
  | nil => simp [assignRanks]
  | cons r rest ih =>
    simp [assignRanks, ih (n + 1)]

/-- C6: the ranked recommendation list is sorted descending by score,
ties broken by profit_margin descending and then crop name ascending;
the ranks are exactly 1..n in list order; and the ranked entries are a
permutation of the scored input entries, so the output is determined by
the input multiset. -/
theorem rankRecommendations_sorted_spec (recs : List ScoredCrop) :
    List.Pairwise (fun a b : RankedCrop =>
        b.score < a.score
          ∨ (a.score = b.score ∧ (b.profit_margin < a.profit_margin
              ∨ (a.profit_margin = b.profit_margin ∧ a.crop ≤ b.crop))))
      (rankRecommendations recs)
    ∧ (rankRecommendations recs).map RankedCrop.rank = List.range' 1 recs.length
    ∧ ((rankRecommendations recs).map (fun q => (q.crop, q.score, q.profit_margin))).Perm
        (recs.map (fun r => (r.crop, r.score, r.profit_margin))) := by
  have htrans : ∀ a b c : ScoredCrop, recLe a b = true → recLe b c = true →
      recLe a c = true := by
    intro a b c hab hbc
    rw [recLe_iff] at *
    exact recRel_trans a b c hab hbc
  have htotal : ∀ a b : ScoredCrop, recLe a b = true ∨ recLe b a = true := by
    intro a b
    rw [recLe_iff, recLe_iff]
    exact recRel_total a b
  have hsorted : (sortLe recLe recs).Pairwise recRel :=
    (pairwise_sortLe recLe htrans htotal recs).imp (fun h => (recLe_iff _ _).mp h)
  refine ⟨?_, ?_, ?_⟩
  · exact pairwise_assignRanks 1 (sortLe recLe recs) hsorted
  · rw [rankRecommendations, map_rank_assignRanks]
    rw [(perm_sortLe recLe recs).length_eq]
  · rw [rankRecommendations, map_fields_assignRanks]
    exact (perm_sortLe recLe recs).map _

end FarmCast
